import Mathlib

/-!
Shallow embedding of the coessing-2021-hub notebook `Intro_xarray_dask.ipynb`.

The notebook defines two toy arithmetic functions `add` and `mlt` (the only
original code of the repository) and otherwise issues single calls into
external libraries (intake, xarray, dask).  The external library behaviour a
claim depends on is modelled from the spec and marked as such in the doc
comment of the corresponding definition.
-/

namespace Coessing

/-! ## Python-like values

The notebook functions are untyped Python functions; their operands are
whatever supports the `+` and `*` operators.  We embed the relevant fragment
of Python values: integers, strings and lists. -/

inductive PyVal where
  | int (n : Int)
  | str (s : String)
  | list (l : List PyVal)

/-- Python binary `+` on the embedded values: integer addition, string
concatenation, list concatenation; anything else raises TypeError (`none`). -/
def pyAdd : PyVal → PyVal → Option PyVal
  | .int a, .int b => some (.int (a + b))
  | .str a, .str b => some (.str (a ++ b))
  | .list a, .list b => some (.list (a ++ b))
  | _, _ => none

/-- String repetition as in Python `s * n` (a non-positive count yields ""). -/
def strRepeat (s : String) : Nat → String
  | 0 => ""
  | n + 1 => s ++ strRepeat s n

/-- List repetition as in Python `l * n`. -/
def listRepeat (l : List PyVal) : Nat → List PyVal
  | 0 => []
  | n + 1 => l ++ listRepeat l n

/-- Python binary `*` on the embedded values: integer multiplication and the
sequence repetitions `str * int`, `int * str`, `list * int`, `int * list`;
anything else raises TypeError (`none`). -/
def pyMul : PyVal → PyVal → Option PyVal
  | .int a, .int b => some (.int (a * b))
  | .str s, .int n => some (.str (strRepeat s n.toNat))
  | .int n, .str s => some (.str (strRepeat s n.toNat))
  | .list l, .int n => some (.list (listRepeat l n.toNat))
  | .int n, .list l => some (.list (listRepeat l n.toNat))
  | _, _ => none

/-! ## The notebook functions `add` and `mlt`

Cell source:
  def add(x,y):
      sleep(2)
      return x+y
  def mlt(x,y):
      sleep(1)
      return x*y

Execution effects are made explicit: `Eff` carries the elapsed wall-clock
seconds (advanced by `sleep`), a log of which function bodies have run, and
the interpreter globals visible to later cells.  The body log is pure
instrumentation marking that a body executed; the source bodies touch nothing
but the clock. -/

inductive Op where
  | addOp
  | mltOp
  deriving Repr, DecidableEq

structure Eff where
  elapsed : Nat
  calls : List Op
  globals : List (String × PyVal)

/-- `time.sleep n`: advances the clock by `n` seconds and does nothing else. -/
def sleep (n : Nat) (e : Eff) : Eff :=
  ⟨e.elapsed + n, e.calls, e.globals⟩

/-- Record that the body of `o` has started executing. -/
def logCall (o : Op) (e : Eff) : Eff :=
  ⟨e.elapsed, e.calls ++ [o], e.globals⟩

/-- The notebook function `add`: its body sleeps two seconds and returns
`x + y`; a failure of `+` is the raised exception, returned as `none`. -/
def add (x y : PyVal) (e : Eff) : Option PyVal × Eff :=
  (pyAdd x y, sleep 2 (logCall .addOp e))

/-- The notebook function `mlt`: its body sleeps one second and returns
`x * y`; a failure of `*` is the raised exception, returned as `none`. -/
def mlt (x y : PyVal) (e : Eff) : Option PyVal × Eff :=
  (pyMul x y, sleep 1 (logCall .mltOp e))

/-- Dispatch an operation tag to the corresponding notebook function. -/
def applyOp : Op → PyVal → PyVal → Eff → Option PyVal × Eff
  | .addOp, x, y, e => add x y e
  | .mltOp, x, y, e => mlt x y e

/-! ## The dask delayed model

Modelled from the spec: deferred/delayed execution is constructing a
description of a computation without running it, to be executed later,
possibly in parallel with other independent computations. -/

/-- Modelled from the spec: a dask `Delayed` object is a description of a
computation - either an already-known value, or a recorded call of one of the
wrapped notebook functions on two sub-descriptions. -/
inductive Delayed where
  | pure (v : PyVal)
  | node (op : Op) (a b : Delayed)

/-- Modelled from the spec: `delayed(f)(x, y)` wraps the call as a graph node;
it records the call without invoking the body of `f`. -/
def delayed (op : Op) (a b : Delayed) : Delayed :=
  .node op a b

/-- Join the results of the two subtasks of a node: if both produced a value
the node's own call runs, otherwise the first raised exception propagates. -/
def runPair (x y : Option PyVal) (op : Op) (e : Eff) : Option PyVal × Eff :=
  match x, y with
  | some vx, some vy => applyOp op vx vy e
  | _, _ => (none, e)

/-- Modelled from the spec: computing a `Delayed` graph runs the recorded
calls.  The two children of a node are independent subtasks; the scheduling
choice `ord` decides which of them is executed first. -/
def computeOrd (ord : Bool) : Delayed → Eff → Option PyVal × Eff
  | .pure v, e => (some v, e)
  | .node op a b, e =>
      if ord then
        let pa := computeOrd ord a e
        let pb := computeOrd ord b pa.2
        runPair pa.1 pb.1 op pb.2
      else
        let pb := computeOrd ord b e
        let pa := computeOrd ord a pb.2
        runPair pa.1 pb.1 op pa.2

/-- The notebook call `c.compute()` under the default left-to-right order. -/
def Delayed.compute (d : Delayed) (e : Eff) : Option PyVal × Eff :=
  computeOrd true d e

/-- Pure denotation of a delayed graph: the value it describes, ignoring
clocks and logs. -/
def evalD : Delayed → Option PyVal
  | .pure v => some v
  | .node op a b =>
      match evalD a, evalD b with
      | some va, some vb =>
          match op with
          | .addOp => pyAdd va vb
          | .mltOp => pyMul va vb
      | _, _ => none

/-! ## The two timed cells

Eager cell:    a = add(1,2); b = mlt(1,2); c = mlt(a,b)
Delayed cell:  a = delayed(add)(1,2); b = delayed(mlt)(1,2);
               c = delayed(mlt)(a,b) -/

/-- The eager cell: runs the three calls in order; an exception in any call
aborts the cell. -/
def eagerCell (e : Eff) : Option (PyVal × PyVal × PyVal) × Eff :=
  match add (.int 1) (.int 2) e with
  | (some a, e1) =>
    match mlt (.int 1) (.int 2) e1 with
    | (some b, e2) =>
      match mlt a b e2 with
      | (some c, e3) => (some (a, b, c), e3)
      | (none, e3) => (none, e3)
    | (none, e2) => (none, e2)
  | (none, e1) => (none, e1)

/-- The delayed cell: builds the three graph objects.  No body is invoked. -/
def delayedCell : Delayed × Delayed × Delayed :=
  let a := delayed .addOp (.pure (.int 1)) (.pure (.int 2))
  let b := delayed .mltOp (.pure (.int 1)) (.pure (.int 2))
  let c := delayed .mltOp a b
  (a, b, c)

/-- The delayed cell as a cell execution: constructing the descriptions has no
effect on the clock, the body log or the globals. -/
def delayedCellE (e : Eff) : (Delayed × Delayed × Delayed) × Eff :=
  (delayedCell, e)

/-! ## The xarray model

Modelled from the spec: the dataset is a remotely hosted, metadata-described
array collection.  The SST variable is a three-dimensional array whose first
(outermost) dimension is time; one time step is a two-dimensional grid of
values (nlat rows of nlon entries each). -/

abbrev Grid := List (List ℚ)

/-- Pointwise access with 0 as the out-of-range default. -/
def gAt (g : Grid) (i j : Nat) : ℚ :=
  (g.getD i []).getD j 0

/-- The all-zero grid of the given shape. -/
def gridZero (nlat nlon : Nat) : Grid :=
  List.replicate nlat (List.replicate nlon 0)

/-- Elementwise sum of two grids. -/
def gridAdd (g h : Grid) : Grid :=
  List.zipWith (List.zipWith (· + ·)) g h

/-- Elementwise scaling of a grid. -/
def gridScale (c : ℚ) (g : Grid) : Grid :=
  g.map (List.map (fun x => c * x))

/-- A grid has shape nlat by nlon. -/
def Rect (nlat nlon : Nat) (g : Grid) : Prop :=
  g.length = nlat ∧ ∀ r ∈ g, r.length = nlon

instance (nlat nlon : Nat) (g : Grid) : Decidable (Rect nlat nlon g) := by
  unfold Rect
  infer_instance

/-- Modelled from the spec: the SST data array - a list of dimension names,
the outermost dimension first, and one grid per index of that outermost
dimension. -/
structure TimeArray where
  dims : List String
  slices : List Grid

/-- Modelled from the spec: `isel(time=i)` selects index `i` of the named
outermost dimension, returning a new array of the remaining dimensions;
it fails if the dimension is not the outermost one or the index is out of
range. -/
def TimeArray.isel (a : TimeArray) (d : String) (i : Nat) :
    Option (List String × Grid) :=
  match a.dims with
  | [] => none
  | t :: rest =>
      if t = d then
        if i < a.slices.length then some (rest, a.slices.getD i []) else none
      else none

/-- Modelled from the spec: `isel(time=slice(lo,hi))` selects the index range
of the named outermost dimension, returning a new array over that range. -/
def TimeArray.iselSlice (a : TimeArray) (d : String) (lo hi : Nat) :
    Option TimeArray :=
  match a.dims with
  | [] => none
  | t :: rest =>
      if t = d then some ⟨t :: rest, (a.slices.drop lo).take (hi - lo)⟩
      else none

/-- Modelled from the spec: `mean(d)` - the mean along the named outermost
dimension: the slices are accumulated elementwise and divided by their count,
and the result no longer carries that dimension. -/
def TimeArray.mean (a : TimeArray) (d : String) :
    Option (List String × Grid) :=
  match a.dims with
  | [] => none
  | t :: rest =>
      if t = d then
        some (rest,
          gridScale (1 / (a.slices.length : ℚ))
            (a.slices.foldl gridAdd
              (gridZero ((a.slices.getD 0 []).length)
                (((a.slices.getD 0 []).getD 0 []).length))))
      else none

/-! ## The intake model

Modelled from the spec: opening the catalog entry with `to_dask` is lazy - it
retrieves only structural metadata, deferring retrieval of actual values.
Reads of actual values are recorded in a read log (the list of time indices
whose values were fetched). -/

structure DsMeta where
  dims : List (String × Nat)
  vars : List String
  attrs : List (String × String)

/-- Modelled from the spec: the remotely hosted, metadata-described array
collection; `fetch i` retrieves the grid of values of time step `i`. -/
structure RemoteDataset where
  meta : DsMeta
  fetch : Nat → Grid

/-- Modelled from the spec: the handle returned by `to_dask` - it keeps a
reference to the remote store, not its values. -/
structure LazyDs where
  src : RemoteDataset

/-- Modelled from the spec: `cat[name].to_dask()` opens the dataset; no value
is fetched (the read log of the call is empty). -/
def to_dask (r : RemoteDataset) : LazyDs × List Nat :=
  (⟨r⟩, [])

/-- Inspecting the dataset (the `ds`, `ds.SST`, `ds.time`, `ds.dims` cells)
returns structural metadata only; no value is fetched. -/
def LazyDs.inspect (d : LazyDs) : DsMeta × List Nat :=
  (d.src.meta, [])

/-- Modelled from the spec: `ds.SST.isel(time=0).plot()` needs the actual
values of the first time step, so computing the plot fetches exactly that
step. -/
def LazyDs.plotFirst (d : LazyDs) : Grid × List Nat :=
  (d.src.fetch 0, [0])

/-- Modelled from the spec: opening the catalog URL consults the network; the
notebook passes any failure on unmodified and adds no handling of its own. -/
def open_catalog (net : String → Except String DsMeta) (url : String) :
    Except String DsMeta :=
  net url

/-! ## The notebook global store and the dataset cells

Each code cell reads the interpreter globals, evaluates one expression and
displays the result; only an assignment writes to the globals.  The dataset
cells of the notebook (`ds`, `ds.SST`, `ds.dims`, the two `isel` cells, the
`mean` cell and the `plot` cell) contain no assignment, so each is a function
that returns the store it received together with its displayed output. -/

/-- Modelled from the spec: the opened dataset, as the cells use it - a named
collection holding the SST variable. -/
structure DsVal where
  SST : TimeArray

inductive Value where
  | pv (v : PyVal)
  | ds (d : DsVal)
  | arr (a : TimeArray)
  | sliceArr (sa : List String × Grid)
  | dimsVal (l : List String)
  | gridVal (g : Grid)

abbrev Store := List (String × Value)

def Store.find (s : Store) (k : String) : Option Value :=
  match s with
  | [] => none
  | (k1, v) :: rest => if k1 = k then some v else Store.find rest k

/-- Look up the SST array of the variable `ds`, as `ds.SST` does. -/
def getSST (s : Store) : Option TimeArray :=
  match Store.find s "ds" with
  | some (.ds d) => some d.SST
  | _ => none

/-- Cell `ds`: display the dataset; no assignment. -/
def cellShowDs (s : Store) : Store × Option Value :=
  (s, Store.find s "ds")

/-- Cell `ds.SST`: display the SST variable; no assignment. -/
def cellSST (s : Store) : Store × Option Value :=
  (s, (getSST s).map .arr)

/-- Cell `ds.dims`: display the dimension names; no assignment. -/
def cellDims (s : Store) : Store × Option Value :=
  (s, (getSST s).map (fun a => .dimsVal a.dims))

/-- Cell `ds.SST.isel(time=0)`: display the first time step; no assignment. -/
def cellIsel0 (s : Store) : Store × Option Value :=
  (s, (getSST s).bind (fun a => (a.isel "time" 0).map .sliceArr))

/-- Cell `ds.SST.isel(time=slice(0,10))`: display the first ten time steps;
no assignment. -/
def cellIselSlice (s : Store) : Store × Option Value :=
  (s, (getSST s).bind (fun a => (a.iselSlice "time" 0 10).map .arr))

/-- Cell `ds.SST.mean(time)`: display the mean along time; no assignment. -/
def cellMean (s : Store) : Store × Option Value :=
  (s, (getSST s).bind (fun a => (a.mean "time").map .sliceArr))

/-- Cell `ds.SST.isel(time=0).plot()`: materialize and plot the first time
step; no assignment. -/
def cellPlot (s : Store) : Store × Option Value :=
  (s, (getSST s).bind (fun a => (a.isel "time" 0).map (fun p => .gridVal p.2)))

/-- The dataset cells of the notebook, in order. -/
def dsCells : List (Store → Store × Option Value) :=
  [cellShowDs, cellSST, cellDims, cellIsel0, cellIselSlice, cellMean,
   cellPlot, cellShowDs]

/-- Run a list of cells, threading the store and collecting the outputs. -/
def runCells (cs : List (Store → Store × Option Value)) (s : Store) :
    Store × List (Option Value) :=
  match cs with
  | [] => (s, [])
  | c :: rest =>
      match c s with
      | (s1, out) =>
          match runCells rest s1 with
          | (s2, outs) => (s2, out :: outs)

/-! ## The shape of the notebook cells

Every code cell of the notebook, as a list of its statements classified by
kind: an import, an assignment of a call result to a name, a displayed
expression, or a function definition. -/

inductive StmtKind where
  | kImport
  | kAssign
  | kExpr
  | kDef
  deriving Repr, DecidableEq

/-- The code cells of Intro_xarray_dask.ipynb, in order:
  1. from intake import open_catalog; cat = open_catalog(url);
     ds = cat[name].to_dask()
  2. ds   3. ds.SST   4. ds.time   5. ds.dims
  6. ds.SST.isel(time=0)   7. ds.SST.isel(time=slice(0,10))
  8. ds.SST.mean(time)   9. ds.SST.isel(time=0).plot()
  10. from time import sleep; def add; def mlt
  11. a = add(1,2); b = mlt(1,2); c = mlt(a,b)
  12. from dask import delayed
  13. a = delayed(add)(1,2); b = delayed(mlt)(1,2); c = delayed(mlt)(a,b)
  14. c.compute()   15. ds
(the final cell of the file is empty and contributes no statement). -/
def notebookCells : List (List StmtKind) :=
  [[.kImport, .kAssign, .kAssign],
   [.kExpr], [.kExpr], [.kExpr], [.kExpr],
   [.kExpr], [.kExpr], [.kExpr], [.kExpr],
   [.kImport, .kDef, .kDef],
   [.kAssign, .kAssign, .kAssign],
   [.kImport],
   [.kAssign, .kAssign, .kAssign],
   [.kExpr], [.kExpr]]

/-! ## Helper lemmas -/

lemma runPair_fst (x y : Option PyVal) (op : Op) (e : Eff) :
    (runPair x y op e).1 =
      match x, y with
      | some vx, some vy =>
          match op with
          | .addOp => pyAdd vx vy
          | .mltOp => pyMul vx vy
      | _, _ => none := by
  cases x <;> cases y <;> cases op <;> rfl

lemma computeOrd_fst (ord : Bool) (d : Delayed) : ∀ e : Eff,
    (computeOrd ord d e).1 = evalD d := by
  induction d with
  | pure v => intro e; rfl
  | node op a b iha ihb =>
      intro e
      cases ord with
      | true =>
          simp only [computeOrd, if_true]
          simp only [runPair_fst, iha, ihb]
          cases h1 : evalD a <;> cases h2 : evalD b <;> cases op <;>
            simp [evalD, h1, h2]
      | false =>
          simp only [computeOrd]
          rw [if_neg (by simp)]
          simp only [runPair_fst, iha, ihb]
          cases h1 : evalD a <;> cases h2 : evalD b <;> cases op <;>
            simp [evalD, h1, h2]

lemma rowAdd_getD : ∀ (r s : List ℚ), r.length = s.length → ∀ j : Nat,
    (List.zipWith (· + ·) r s).getD j 0 = r.getD j 0 + s.getD j 0
  | [], [], _, j => by simp
  | [], _ :: _, h, j => by simp at h
  | _ :: _, [], h, j => by simp at h
  | x :: xs, y :: ys, h, 0 => by simp
  | x :: xs, y :: ys, h, j + 1 => by
      simpa using rowAdd_getD xs ys (by simpa using h) j

lemma gAt_gridAdd_aux : ∀ (n : Nat) (g h : Grid), g.length = h.length →
    (∀ r ∈ g, r.length = n) → (∀ r ∈ h, r.length = n) → ∀ i j : Nat,
    gAt (gridAdd g h) i j = gAt g i j + gAt h i j
  | n, [], [], _, _, _, i, j => by simp [gridAdd, gAt]
  | n, [], _ :: _, hl, _, _, i, j => by simp at hl
  | n, _ :: _, [], hl, _, _, i, j => by simp at hl
  | n, r :: g1, s :: h1, hl, hg, hh, 0, j => by
      have hr : r.length = n := hg r (List.mem_cons_self r g1)
      have hs : s.length = n := hh s (List.mem_cons_self s h1)
      simpa [gridAdd, gAt] using rowAdd_getD r s (by rw [hr, hs]) j
  | n, r :: g1, s :: h1, hl, hg, hh, i + 1, j => by
      simpa [gridAdd, gAt] using
        gAt_gridAdd_aux n g1 h1 (by simpa using hl)
          (fun t ht => hg t (List.mem_cons_of_mem r ht))
          (fun t ht => hh t (List.mem_cons_of_mem s ht)) i j

lemma gAt_gridAdd (m n : Nat) (g h : Grid) (hg : Rect m n g)
    (hh : Rect m n h) (i j : Nat) :
    gAt (gridAdd g h) i j = gAt g i j + gAt h i j :=
  gAt_gridAdd_aux n g h (hg.1.trans hh.1.symm) hg.2 hh.2 i j

lemma length_gridAdd (g h : Grid) (hl : g.length = h.length) :
    (gridAdd g h).length = g.length := by
  simp [gridAdd, List.length_zipWith, hl]

lemma rows_gridAdd : ∀ (n : Nat) (g h : Grid),
    (∀ r ∈ g, r.length = n) → (∀ r ∈ h, r.length = n) →
    ∀ r ∈ gridAdd g h, r.length = n
  | n, [], h, _, _, r, hr => by simp [gridAdd] at hr
  | n, _ :: _, [], _, _, r, hr => by simp [gridAdd] at hr
  | n, a :: g1, b :: h1, hg, hh, r, hr => by
      rcases (by simpa [gridAdd] using hr :
          r = List.zipWith (· + ·) a b ∨ r ∈ gridAdd g1 h1) with h1r | h2r
      · have ha : a.length = n := hg a (List.mem_cons_self a g1)
        have hb : b.length = n := hh b (List.mem_cons_self b h1)
        simp [h1r, List.length_zipWith, ha, hb]
      · exact rows_gridAdd n g1 h1
          (fun t ht => hg t (List.mem_cons_of_mem a ht))
          (fun t ht => hh t (List.mem_cons_of_mem b ht)) r h2r

lemma rect_gridAdd (m n : Nat) (g h : Grid) (hg : Rect m n g)
    (hh : Rect m n h) : Rect m n (gridAdd g h) :=
  ⟨by rw [length_gridAdd g h (hg.1.trans hh.1.symm)]; exact hg.1,
   rows_gridAdd n g h hg.2 hh.2⟩

lemma gAt_foldl : ∀ (m n : Nat) (l : List Grid) (z : Grid), Rect m n z →
    (∀ g ∈ l, Rect m n g) → ∀ i j : Nat,
    gAt (l.foldl gridAdd z) i j = gAt z i j + (l.map (fun g => gAt g i j)).sum
  | m, n, [], z, _, _, i, j => by simp
  | m, n, g0 :: gs, z, hz, hl, i, j => by
      have hg0 : Rect m n g0 := hl g0 (List.mem_cons_self g0 gs)
      have step := gAt_foldl m n gs (gridAdd z g0)
        (rect_gridAdd m n z g0 hz hg0)
        (fun g hg => hl g (List.mem_cons_of_mem g0 hg)) i j
      simp only [List.foldl_cons, step, gAt_gridAdd m n z g0 hz hg0,
        List.map_cons, List.sum_cons]
      ring

lemma rowScale_getD : ∀ (c : ℚ) (r : List ℚ) (j : Nat),
    (r.map (fun x => c * x)).getD j 0 = c * r.getD j 0
  | c, [], j => by simp
  | c, x :: xs, 0 => by simp
  | c, x :: xs, j + 1 => by simpa using rowScale_getD c xs j

lemma gAt_gridScale : ∀ (c : ℚ) (g : Grid) (i j : Nat),
    gAt (gridScale c g) i j = c * gAt g i j
  | c, [], i, j => by simp [gridScale, gAt]
  | c, r :: rs, 0, j => by simpa [gridScale, gAt] using rowScale_getD c r j
  | c, r :: rs, i + 1, j => by
      simpa [gridScale, gAt] using gAt_gridScale c rs i j

lemma replicate_getD_zero : ∀ (n j : Nat),
    (List.replicate n (0 : ℚ)).getD j 0 = 0
  | 0, j => by simp
  | n + 1, 0 => by simp
  | n + 1, j + 1 => by
      rw [List.replicate_succ, List.getD_cons_succ]
      exact replicate_getD_zero n j

lemma gAt_gridZero : ∀ (m n i j : Nat), gAt (gridZero m n) i j = 0
  | 0, n, i, j => by simp [gridZero, gAt]
  | m + 1, n, 0, j => by
      simp only [gridZero, gAt, List.replicate_succ, List.getD_cons_zero]
      exact replicate_getD_zero n j
  | m + 1, n, i + 1, j => by
      simpa [gridZero, gAt, List.replicate_succ] using gAt_gridZero m n i j

lemma rect_gridZero (m n : Nat) : Rect m n (gridZero m n) :=
  ⟨List.length_replicate m (List.replicate n 0), fun r hr => by
    rw [List.eq_of_mem_replicate hr]
    exact List.length_replicate n 0⟩

lemma rect_gridZero_of (m n : Nat) (s : Grid) (hs : Rect m n s) :
    Rect m n (gridZero s.length ((s.getD 0 []).length)) := by
  cases s with
  | nil =>
      have hm : m = 0 := hs.1.symm
      subst hm
      exact ⟨rfl, by simp [gridZero]⟩
  | cons r s1 =>
      have hlen : (r :: s1).length = m := hs.1
      have hr : r.length = n := hs.2 r (List.mem_cons_self r s1)
      rw [hlen, List.getD_cons_zero, hr]
      exact rect_gridZero m n

/-! ## Claim theorems -/

/-- C1: executing the deferred computation built by the delayed cell with
`c.compute()` yields exactly the same result as running the eager cell,
namely the value 6: whatever the clock, log and globals, the eager value of
`c` and the computed value of the delayed `c` are both `6`. -/
theorem eager_delayed_agree_six : ∀ e : Eff,
    ((eagerCell e).1.map fun t => t.2.2) = some (.int 6)
    ∧ ((delayedCell.2.2).compute e).1 = some (.int 6) :=
  fun _ => ⟨rfl, rfl⟩

/-- C2: for every pair of integer arguments, `add` returns the single value
`x + y` and `mlt` returns `x * y`; the only other effect of a call is the
passage of sleep time (and the instrumentation log) - the globals are
untouched. -/
theorem add_mlt_int_values : ∀ (x y : Int) (e : Eff),
    add (.int x) (.int y) e
      = (some (.int (x + y)), ⟨e.elapsed + 2, e.calls ++ [.addOp], e.globals⟩)
    ∧ mlt (.int x) (.int y) e
      = (some (.int (x * y)), ⟨e.elapsed + 1, e.calls ++ [.mltOp], e.globals⟩) :=
  fun _ _ _ => ⟨rfl, rfl⟩

/-- C3: constructing the delayed objects never invokes `add` or `mlt` - the
construction cell leaves the clock, the body log and the globals exactly as
they were - while `c.compute()` runs the three bodies. -/
theorem delayed_defers_execution : ∀ e : Eff,
    (delayedCellE e).2 = e
    ∧ ((delayedCell.2.2).compute e).2.calls
        = e.calls ++ [.addOp, .mltOp, .mltOp] := by
  intro e
  refine ⟨rfl, ?_⟩
  have h : ((delayedCell.2.2).compute e).2.calls
      = ((e.calls ++ [Op.addOp]) ++ [Op.mltOp]) ++ [Op.mltOp] := rfl
  rw [h]
  simp

/-- C4: opening the catalog entry with `to_dask` retrieves only the
structural metadata of the dataset, with an empty read log; inspecting the
handle reads no values either; the plot of the first time step is the first
operation that materializes values, and it fetches exactly that step. -/
theorem lazy_load_metadata_only : ∀ r : RemoteDataset,
    (to_dask r).2 = []
    ∧ ((to_dask r).1.inspect).1 = r.meta
    ∧ ((to_dask r).1.inspect).2 = []
    ∧ ((to_dask r).1.plotFirst).1 = r.fetch 0
    ∧ ((to_dask r).1.plotFirst).2 = [0]
    ∧ ((to_dask r).1.plotFirst).2 ≠ [] :=
  fun _ => ⟨rfl, rfl, rfl, rfl, rfl, List.cons_ne_nil 0 []⟩

/-- C5: failures are surfaced unmodified - the value `add` and `mlt` return
is exactly the value of the underlying operator (a raised exception included,
as `none`), the globals visible to later cells are never modified by a call,
and opening the catalog returns whatever the network returned, errors
included, with no handling added. -/
theorem errors_surfaced_unmodified : ∀ (x y : PyVal) (e : Eff)
    (net : String → Except String DsMeta) (url : String),
    (add x y e).1 = pyAdd x y
    ∧ (mlt x y e).1 = pyMul x y
    ∧ (add x y e).2.globals = e.globals
    ∧ (mlt x y e).2.globals = e.globals
    ∧ open_catalog net url = net url :=
  fun _ _ _ _ _ => ⟨rfl, rfl, rfl, rfl, rfl⟩

/-- C6, counterexample: it is not the case that each code cell of the
notebook is a single statement - the cell `a = add(1,2); b = mlt(1,2);
c = mlt(a,b)` has three statements, and the cell defining `add` and `mlt` is
a pair of function definitions after an import, not a call. -/
theorem notebook_cells_not_all_single :
    (notebookCells.all fun c => c.length == 1) = false := by decide

/-- C6, amended: every code cell of the notebook is either a single displayed
expression, a single import, the import-plus-two-assignments opening cell,
the cell defining the two helper functions, or one of the two cells of three
assignments (the eager and the delayed `a`, `b`, `c`); there is no other
statement shape and no control flow. -/
theorem notebook_cells_shapes :
    (notebookCells.all fun c =>
      c == [.kExpr] || c == [.kImport]
        || c == [.kImport, .kAssign, .kAssign]
        || c == [.kImport, .kDef, .kDef]
        || c == [.kAssign, .kAssign, .kAssign]) = true := by decide

/-- C7: `ds.SST.mean(time)` computes the mean along the named dimension: for
every rectangular dataset whose SST variable carries a time dimension, the
result is an array without the time dimension in which each element equals
the arithmetic mean - the sum divided by the count - of the corresponding
values along time. -/
theorem mean_along_time_correct (a : TimeArray) (rest : List String)
    (m n : Nat) (hd : a.dims = "time" :: rest) (hnd : a.dims.Nodup)
    (hr : ∀ g ∈ a.slices, Rect m n g) (hne : a.slices ≠ []) :
    (a.mean "time").map Prod.fst = some rest
    ∧ "time" ∉ rest
    ∧ ∀ i j : Nat, (a.mean "time").map (fun p => gAt p.2 i j)
        = some ((a.slices.map (fun g => gAt g i j)).sum
            / (a.slices.length : ℚ)) := by
  have hmean : a.mean "time" = some (rest,
      gridScale (1 / (a.slices.length : ℚ)) (a.slices.foldl gridAdd
        (gridZero ((a.slices.getD 0 []).length)
          (((a.slices.getD 0 []).getD 0 []).length)))) := by
    rw [TimeArray.mean, hd]
    simp
  refine ⟨by rw [hmean]; rfl, ?_, ?_⟩
  · have h := hd ▸ hnd
    exact (List.nodup_cons.mp h).1
  · intro i j
    have hhead : Rect m n (a.slices.getD 0 []) := by
      rcases List.exists_cons_of_ne_nil hne with ⟨s0, tl, hs⟩
      rw [hs, List.getD_cons_zero]
      exact hr s0 (hs ▸ List.mem_cons_self s0 tl)
    have hz := rect_gridZero_of m n (a.slices.getD 0 []) hhead
    rw [hmean]
    show some _ = some _
    simp only [gAt_gridScale]
    rw [gAt_foldl m n a.slices _ hz hr, gAt_gridZero, zero_add,
      one_div_mul_eq_div]

/-- Witness for C7 on a concrete two-step, two-by-two dataset: the mean has
dimensions nlat and nlon only, and its entry at row 0, column 1 is the mean
of 2 and 6, namely 4. -/
theorem mean_along_time_witness :
    ((TimeArray.mk ["time", "nlat", "nlon"]
        [[[1, 2], [3, 4]], [[3, 6], [5, 0]]]).mean "time").map
      (fun p => gAt p.2 0 1) = some 4 := by
  have h := mean_along_time_correct
    (TimeArray.mk ["time", "nlat", "nlon"]
      [[[1, 2], [3, 4]], [[3, 6], [5, 0]]])
    ["nlat", "nlon"] 2 2 rfl (by decide) (by decide) (by decide)
  rw [h.2.2 0 1]
  norm_num [gAt]

/-- C8: the dataset cells of the notebook (display, variable access, `isel`,
`mean`, plot) modify nothing: running them all returns the global store they
started from, and in particular the binding of `ds` is unchanged. -/
theorem ds_cells_preserve_store : ∀ s : Store,
    (runCells dsCells s).1 = s
    ∧ Store.find (runCells dsCells s).1 "ds" = Store.find s "ds" :=
  fun _ => ⟨rfl, rfl⟩

/-- C9: the toy computation is deterministic - the value computed from a
delayed graph does not depend on the scheduling order of the independent
subtasks nor on the clock, log or globals it starts from; the values of
`add` and `mlt` depend only on their arguments; and the delayed run of the
notebook graph returns the same value as the eager run. -/
theorem compute_deterministic :
    (∀ (ord1 ord2 : Bool) (e1 e2 : Eff) (d : Delayed),
        (computeOrd ord1 d e1).1 = (computeOrd ord2 d e2).1)
    ∧ (∀ (x y : PyVal) (e1 e2 : Eff), (add x y e1).1 = (add x y e2).1)
    ∧ (∀ (x y : PyVal) (e1 e2 : Eff), (mlt x y e1).1 = (mlt x y e2).1)
    ∧ (∀ e : Eff, ((eagerCell e).1.map fun t => t.2.2)
        = ((delayedCell.2.2).compute e).1) := by
  refine ⟨?_, fun _ _ _ _ => rfl, fun _ _ _ _ => rfl, fun _ => rfl⟩
  intro ord1 ord2 e1 e2 d
  rw [computeOrd_fst, computeOrd_fst]

/-- C10: `add` and `mlt` impose no type restriction - on strings `add`
concatenates, on lists it concatenates, `mlt` of a string and the integer 3
repeats the string three times, and each function returns `none` (raises)
exactly when the underlying Python operator does, as `add` on a string and
an integer does. -/
theorem add_mlt_polymorphic : ∀ (s t : String) (l1 l2 : List PyVal)
    (x y : PyVal) (e : Eff),
    (add (.str s) (.str t) e).1 = some (.str (s ++ t))
    ∧ (add (.list l1) (.list l2) e).1 = some (.list (l1 ++ l2))
    ∧ (mlt (.str s) (.int 3) e).1 = some (.str (s ++ (s ++ (s ++ ""))))
    ∧ ((add x y e).1 = none ↔ pyAdd x y = none)
    ∧ ((mlt x y e).1 = none ↔ pyMul x y = none)
    ∧ (add (.str s) (.int 3) e).1 = none :=
  fun _ _ _ _ _ _ _ => ⟨rfl, rfl, rfl, Iff.rfl, Iff.rfl, rfl⟩

end Coessing
